import Mathlib

/-!
Verification of the ardufocus motion-control engine and input-arbitration
layer against its specification.

The embedding follows `src/ardufocus/stepper.cpp`,
`src/ardufocus/ui_reskeybd.cpp` and the unnamed revision of the resistor
keyboard (`src/unnamed/part_000`).  The configuration in
`src/ardufocus/config.h` selects the Trapezoid acceleration profile
(`USE_TRAPEZOID_ACCEL`), so `set_target_position` and `update_freq` are
embedded with that profile's branches.

Machine integers: `current`/`target` are `uint32_t`, but every mutation of
them in the embedded code is guarded by a comparison that rules out wrap
(outward steps require `current < target`, inward steps `target < current`),
so they are modelled as `Nat`.  The `static uint8_t counter` of
`stepper::tick` is modelled as a `Nat` kept below 256 by explicit `% 256`.
The header `stepper.h` (field declarations, `TIMER0_FREQ`) is not part of
the sources, so the base tick rate `T`, `ACCEL_MIN_STEPS` (`amin`) and
`ACCEL_DURATION` (`adur`) are parameters, and the width of `m_ovf_counter`
is modelled as `Nat` (it is reset to zero whenever it reaches the threshold,
so it never wraps for realistic thresholds).

Floating point: the ramped branch of `stepper::update_freq` computes a
float `lerp`; its (integer-truncated) result is modelled by an abstract
function `ramp : MotorState → Nat`.  Modelled from the spec: the spec's
invariant `set_speed ∈ [min_speed, max_speed]` becomes hypotheses bounding
the outputs of `ramp`.  The branch for short moves
(`m_set_speed = m_min_speed`) is exact.
-/

/-- The per-axis motion state of `stepper` (fields of `m_position` together
with `m_speed`, `m_set_speed`, `m_ovf_counter` and the `static uint8_t
counter` local to `stepper::tick`).  `min_speed`/`max_speed` are the
per-motor configuration constants `m_min_speed`/`m_max_speed`. -/
@[ext] structure MotorState where
  current : Nat
  target : Nat
  moving : Bool
  speed : Nat
  set_speed : Nat
  ovf_counter : Nat
  counter : Nat
  distance : Nat
  relative : Nat
  easein : Nat
  easeout : Nat
  min_speed : Nat
  max_speed : Nat
  deriving DecidableEq, Repr

/-- Absolute difference used by `stepper::set_target_position`:
`(current > target) ? current - target : target - current`. -/
def absDist (a b : Nat) : Nat := if b < a then a - b else b - a

namespace stepper

/-- `stepper::halt`: set `target = current`, `moving = false`. -/
def halt (s : MotorState) : MotorState :=
  { s with target := s.current, moving := false }

/-- `stepper::move`: clear the overflow counter and set `moving = true`. -/
def move (s : MotorState) : MotorState :=
  { s with ovf_counter := 0, moving := true }

/-- `stepper::set_current_position`: set both `current` and `target`. -/
def set_current_position (p : Nat) (s : MotorState) : MotorState :=
  { s with current := p, target := p }

/-- `stepper::set_speed`: set the host/UI speed divider `m_speed`. -/
def set_speed (v : Nat) (s : MotorState) : MotorState :=
  { s with speed := v }

/-- `stepper::set_target_position` with the Trapezoid (or Smoothstep)
profile configured: set `target`, reset `relative`, recompute `distance`,
and when `distance ≥ ACCEL_MIN_STEPS` recompute `easein`/`easeout`
(`distance >> 1` twice when `distance < ACCEL_DURATION << 1`, otherwise
`ACCEL_DURATION` and `distance - ACCEL_DURATION`). -/
def set_target_position (amin adur t : Nat) (s : MotorState) : MotorState :=
  let d := absDist s.current t
  let s1 : MotorState := { s with target := t, relative := 0, distance := d }
  if amin ≤ d then
    if d < 2 * adur then
      { s1 with easein := d / 2, easeout := d / 2 }
    else
      { s1 with easein := adur, easeout := d - adur }
  else s1

/-- `stepper::update_freq`: when `distance ≥ ACCEL_MIN_STEPS` the ramped
(float) branch applies, modelled by `ramp`; otherwise
`m_set_speed = m_min_speed`. -/
def update_freq (ramp : MotorState → Nat) (amin : Nat) (s : MotorState) : Nat :=
  if amin ≤ s.distance then ramp s else s.min_speed

/-- `stepper::update_position`: `current += direction`, `++relative`, then
`update_freq()` (which reads the already-updated fields). -/
def update_position (ramp : MotorState → Nat) (amin : Nat) (dir : Int)
    (s : MotorState) : MotorState :=
  let s1 : MotorState :=
    { s with current := ((s.current : Int) + dir).toNat,
             relative := s.relative + 1 }
  { s1 with set_speed := update_freq ramp amin s1 }

/-- The direction/step phase of `stepper::tick`, reached after both counter
gates pass.  `emit` is the Pulse Emitter's answer (`step_cw`/`step_ccw`);
the direction-inversion flag only selects which physical routine is called
and does not affect the state update, so it is not modelled. -/
def stepPhase (ramp : MotorState → Nat) (amin : Nat) (emit : Bool)
    (s : MotorState) : MotorState :=
  if s.current < s.target then
    (if emit then update_position ramp amin 1 s else s)
  else if s.target < s.current then
    (if emit then update_position ramp amin (-1) s else s)
  else halt s

/-- `stepper::tick`.  `T` is `TIMER0_FREQ`.  The first gate tests the
pre-increment `m_ovf_counter` against `TIMER0_FREQ / (m_set_speed << 1) - 1`
(on the failing path the counter keeps the increment; on the passing path it
is reset to 0).  The second gate tests the pre-increment `static uint8_t
counter` modulo `m_speed >> 1`; the counter keeps the increment on both
paths.  `sleep()` on the not-moving path touches only the driver, not the
motion state. -/
def tick (T amin : Nat) (ramp : MotorState → Nat) (emit : Bool)
    (s : MotorState) : MotorState :=
  if s.moving = false then s
  else if s.ovf_counter < T / (2 * s.set_speed) - 1 then
    { s with ovf_counter := s.ovf_counter + 1 }
  else
    let s1 : MotorState := { s with ovf_counter := 0,
                                    counter := (s.counter + 1) % 256 }
    if s.counter % (s.speed / 2) ≠ 0 then s1
    else stepPhase ramp amin emit s1

/-- Initial motion state.  Modelled from the spec: the lifecycle starts with
`current = target = 0`, `moving = false`, `speed_divider = 2` (the member
initialisers live in the missing `stepper.h`; `stepper::init` sets
`m_speed = 2`, `m_ovf_counter = 0`). -/
def init (mn mx : Nat) : MotorState :=
  ⟨0, 0, false, 2, mn, 0, 0, 0, 0, 0, 0, mn, mx⟩

end stepper

/-- C6: `halt()` is idempotent: for every starting motion state, calling it
twice equals calling it once, and afterwards `target == current` and
`moving == false`. -/
theorem halt_idempotent (s : MotorState) :
    stepper.halt (stepper.halt s) = stepper.halt s ∧
    (stepper.halt s).target = (stepper.halt s).current ∧
    (stepper.halt s).moving = false := by
  refine ⟨?_, rfl, rfl⟩
  simp [stepper.halt]

/-- C2: `set_target_position(t)` sets `target = t`, resets `relative`,
recomputes `distance = |current - t|`; when `distance ≥ ACCEL_MIN_STEPS`
under the Trapezoid/Smoothstep profile, `ease_in = ease_out = distance / 2`
if `distance < 2·ACCEL_DURATION`, else `ease_in = ACCEL_DURATION` and
`ease_out = distance - ACCEL_DURATION`; with `ACCEL_DURATION = 250`,
`distance = 300` gives 150/150 and `distance = 600` gives 250/350. -/
theorem set_target_position_spec (amin adur t : Nat) (s : MotorState) :
    ((stepper.set_target_position amin adur t s).target = t ∧
     (stepper.set_target_position amin adur t s).relative = 0 ∧
     (stepper.set_target_position amin adur t s).distance =
       absDist s.current t) ∧
    (amin ≤ absDist s.current t →
      (absDist s.current t < 2 * adur →
        (stepper.set_target_position amin adur t s).easein =
          absDist s.current t / 2 ∧
        (stepper.set_target_position amin adur t s).easeout =
          absDist s.current t / 2) ∧
      (2 * adur ≤ absDist s.current t →
        (stepper.set_target_position amin adur t s).easein = adur ∧
        (stepper.set_target_position amin adur t s).easeout =
          absDist s.current t - adur)) ∧
    ((stepper.set_target_position 10 250 300 (stepper.init 25 500)).easein = 150 ∧
     (stepper.set_target_position 10 250 300 (stepper.init 25 500)).easeout = 150 ∧
     (stepper.set_target_position 10 250 600 (stepper.init 25 500)).easein = 250 ∧
     (stepper.set_target_position 10 250 600 (stepper.init 25 500)).easeout = 350) := by
  refine ⟨?_, ?_, by decide⟩
  · simp only [stepper.set_target_position]
    split_ifs <;> simp
  · intro hge
    constructor
    · intro hlt
      simp [stepper.set_target_position, hge, hlt]
    · intro hge2
      have hnlt : ¬ absDist s.current t < 2 * adur := by omega
      simp [stepper.set_target_position, hge, hnlt]

/-- Closed instantiation of the hypotheses of `set_target_position_spec`. -/
theorem set_target_position_spec_witness :
    (10 ≤ absDist (stepper.init 25 500).current 300 ∧
     absDist (stepper.init 25 500).current 300 < 2 * 250 ∧
     (stepper.set_target_position 10 250 300 (stepper.init 25 500)).easein = 150) ∧
    (2 * 250 ≤ absDist (stepper.init 25 500).current 600 ∧
     (stepper.set_target_position 10 250 600 (stepper.init 25 500)).easeout = 350) := by
  refine ⟨⟨by decide, by decide, ?_⟩, ⟨by decide, ?_⟩⟩
  · exact (((set_target_position_spec 10 250 300 (stepper.init 25 500)).2.1
      (by decide)).1 (by decide)).1
  · exact (((set_target_position_spec 10 250 600 (stepper.init 25 500)).2.1
      (by decide)).2 (by decide)).2

/-- C10: when the new `distance = |current - t|` is below `ACCEL_MIN_STEPS`,
`set_target_position` leaves `easein`/`easeout` untouched while still
updating `target`, `distance` and `relative`; consequently `easeout` can
exceed the new `distance` (shown after a 600-step move followed by a
5-step retarget). -/
theorem set_target_position_short_frame (amin adur t : Nat) (s : MotorState) :
    (absDist s.current t < amin →
      (stepper.set_target_position amin adur t s).easein = s.easein ∧
      (stepper.set_target_position amin adur t s).easeout = s.easeout ∧
      (stepper.set_target_position amin adur t s).target = t ∧
      (stepper.set_target_position amin adur t s).distance =
        absDist s.current t ∧
      (stepper.set_target_position amin adur t s).relative = 0) ∧
    ((stepper.set_target_position 10 250 5
        (stepper.set_target_position 10 250 600 (stepper.init 25 500))).distance <
     (stepper.set_target_position 10 250 5
        (stepper.set_target_position 10 250 600 (stepper.init 25 500))).easeout) := by
  refine ⟨?_, by decide⟩
  intro hlt
  have hnge : ¬ amin ≤ absDist s.current t := by omega
  simp [stepper.set_target_position, hnge]

/-- Closed instantiation of the hypothesis of
`set_target_position_short_frame`. -/
theorem set_target_position_short_frame_witness :
    absDist (stepper.init 25 500).current 5 < 10 ∧
    (stepper.set_target_position 10 250 5 (stepper.init 25 500)).easeout =
      (stepper.init 25 500).easeout := by
  exact ⟨by decide,
    ((set_target_position_short_frame 10 250 5 (stepper.init 25 500)).1
      (by decide)).2.1⟩

/-- Helper: a tick on a non-moving axis changes nothing. -/
theorem tick_not_moving (T amin : Nat) (ramp : MotorState → Nat) (emit : Bool)
    (s : MotorState) (h : s.moving = false) :
    stepper.tick T amin ramp emit s = s := by
  simp [stepper.tick, h]

/-- Helper: when the pre-increment overflow counter is still below
`TIMER0_FREQ / (2 set_speed) - 1`, the tick only increments it. -/
theorem tick_gate1_fail (T amin : Nat) (ramp : MotorState → Nat) (emit : Bool)
    (s : MotorState) (h : s.moving = true)
    (h1 : s.ovf_counter < T / (2 * s.set_speed) - 1) :
    stepper.tick T amin ramp emit s =
      { s with ovf_counter := s.ovf_counter + 1 } := by
  simp [stepper.tick, h, h1]

/-- Helper: when the first gate passes but the pre-increment `counter` is
nonzero modulo `speed / 2`, the tick resets the overflow counter,
increments `counter`, and does nothing else. -/
theorem tick_gate2_fail (T amin : Nat) (ramp : MotorState → Nat) (emit : Bool)
    (s : MotorState) (h : s.moving = true)
    (h1 : ¬ s.ovf_counter < T / (2 * s.set_speed) - 1)
    (h2 : s.counter % (s.speed / 2) ≠ 0) :
    stepper.tick T amin ramp emit s =
      { s with ovf_counter := 0, counter := (s.counter + 1) % 256 } := by
  simp [stepper.tick, h, h1, h2]

/-- Helper: when both gates pass, the tick runs the direction/step phase on
the state with the overflow counter reset and `counter` incremented. -/
theorem tick_qualifying (T amin : Nat) (ramp : MotorState → Nat) (emit : Bool)
    (s : MotorState) (h : s.moving = true)
    (h1 : ¬ s.ovf_counter < T / (2 * s.set_speed) - 1)
    (h2 : s.counter % (s.speed / 2) = 0) :
    stepper.tick T amin ramp emit s =
      stepper.stepPhase ramp amin emit
        { s with ovf_counter := 0, counter := (s.counter + 1) % 256 } := by
  simp [stepper.tick, h, h1, h2]

/-- Helper: the step phase moves outward when `current < target`. -/
theorem stepPhase_out (ramp : MotorState → Nat) (amin : Nat) (emit : Bool)
    (s : MotorState) (h : s.current < s.target) :
    stepper.stepPhase ramp amin emit s =
      (if emit then stepper.update_position ramp amin 1 s else s) := by
  simp [stepper.stepPhase, h]

/-- Helper: the step phase moves inward when `target < current`. -/
theorem stepPhase_in (ramp : MotorState → Nat) (amin : Nat) (emit : Bool)
    (s : MotorState) (h : s.target < s.current) :
    stepper.stepPhase ramp amin emit s =
      (if emit then stepper.update_position ramp amin (-1) s else s) := by
  have h2 : ¬ s.current < s.target := by omega
  simp [stepper.stepPhase, h, h2]

/-- Helper: the step phase halts when `current == target`. -/
theorem stepPhase_arrived (ramp : MotorState → Nat) (amin : Nat) (emit : Bool)
    (s : MotorState) (h : s.current = s.target) :
    stepper.stepPhase ramp amin emit s = stepper.halt s := by
  simp [stepper.stepPhase, h]

/-- Helper: `stepper::tick` never modifies `distance` or `min_speed` (the
move's captured length and the configured minimum are stable across ticks). -/
theorem tick_preserves_distance (T amin : Nat) (ramp : MotorState → Nat)
    (emit : Bool) (s : MotorState) :
    (stepper.tick T amin ramp emit s).distance = s.distance ∧
    (stepper.tick T amin ramp emit s).min_speed = s.min_speed := by
  simp only [stepper.tick, stepper.stepPhase, stepper.update_position,
    stepper.halt]
  split_ifs <;> simp

/-- C3: for a move whose `distance` is below `ACCEL_MIN_STEPS`, the planner
branch of `update_freq` is never taken: `update_freq` yields `min_speed`
for every choice of ramp function, ticking never changes `distance` (so the
condition holds for the whole move), and on every successful step the tick
leaves `set_speed = min_speed`. -/
theorem update_freq_short_move (T amin : Nat) (ramp : MotorState → Nat)
    (emit : Bool) (s : MotorState) (hshort : s.distance < amin) :
    stepper.update_freq ramp amin s = s.min_speed ∧
    (stepper.tick T amin ramp emit s).distance = s.distance ∧
    (s.moving = true → ¬ s.ovf_counter < T / (2 * s.set_speed) - 1 →
      s.counter % (s.speed / 2) = 0 → s.current ≠ s.target → emit = true →
      (stepper.tick T amin ramp emit s).set_speed = s.min_speed) := by
  have hfreq : ∀ u : MotorState, u.distance < amin →
      stepper.update_freq ramp amin u = u.min_speed := by
    intro u hu
    have : ¬ amin ≤ u.distance := by omega
    simp [stepper.update_freq, this]
  refine ⟨hfreq s hshort, (tick_preserves_distance T amin ramp emit s).1, ?_⟩
  intro hm hovf hctr hne hemit
  subst hemit
  rw [tick_qualifying T amin ramp true s hm hovf hctr]
  rcases Nat.lt_trichotomy s.current s.target with hlt | heq | hgt
  · rw [stepPhase_out ramp amin true _ (by simpa using hlt), if_pos rfl]
    simp only [stepper.update_position]
    exact hfreq _ (by simpa using hshort)
  · exact absurd heq hne
  · rw [stepPhase_in ramp amin true _ (by simpa using hgt), if_pos rfl]
    simp only [stepper.update_position]
    exact hfreq _ (by simpa using hshort)

/-- Closed instantiation of the hypotheses of `update_freq_short_move`:
a 5-step move with `ACCEL_MIN_STEPS = 10` runs at `min_speed`. -/
theorem update_freq_short_move_witness :
    (stepper.set_target_position 10 250 5 (stepper.init 25 500)).distance < 10 ∧
    stepper.update_freq (fun _ => 500) 10
      (stepper.set_target_position 10 250 5 (stepper.init 25 500)) = 25 := by
  refine ⟨by decide, ?_⟩
  have h := update_freq_short_move 2000 10 (fun _ => 500) true
    (stepper.set_target_position 10 250 5 (stepper.init 25 500)) (by decide)
  exact h.1

/-- C4: two-tier gating of `tick()` with exact integer truncation.  On a
moving axis, the tick proceeds past the first gate exactly when the
pre-increment overflow counter has reached
`TIMER0_FREQ / (2 * set_speed) - 1` (failing ticks only increment it); it
then proceeds past the second gate exactly when the pre-increment
`counter` satisfies `counter % (speed_divider / 2) == 0` (failing ticks
reset the overflow counter and increment `counter`); only then is the step
phase reached.  The hypotheses `1 ≤ T / (2 * set_speed)` and `2 ≤ speed`
keep the `Nat` model of the C expressions `... - 1` and `% (m_speed >> 1)`
in the regime where both agree with the machine arithmetic. -/
theorem tick_two_tier_gating (T amin : Nat) (ramp : MotorState → Nat)
    (emit : Bool) (s : MotorState) (hm : s.moving = true)
    (_hq : 1 ≤ T / (2 * s.set_speed)) (_hsp : 2 ≤ s.speed) :
    (s.ovf_counter < T / (2 * s.set_speed) - 1 →
      stepper.tick T amin ramp emit s =
        { s with ovf_counter := s.ovf_counter + 1 }) ∧
    (T / (2 * s.set_speed) - 1 ≤ s.ovf_counter →
      (s.counter % (s.speed / 2) ≠ 0 →
        stepper.tick T amin ramp emit s =
          { s with ovf_counter := 0, counter := (s.counter + 1) % 256 }) ∧
      (s.counter % (s.speed / 2) = 0 →
        stepper.tick T amin ramp emit s =
          stepper.stepPhase ramp amin emit
            { s with ovf_counter := 0, counter := (s.counter + 1) % 256 })) := by
  refine ⟨fun h1 => tick_gate1_fail T amin ramp emit s hm h1, fun hge => ⟨?_, ?_⟩⟩
  · intro h2
    exact tick_gate2_fail T amin ramp emit s hm (by omega) h2
  · intro h2
    exact tick_qualifying T amin ramp emit s hm (by omega) h2

/-- Closed instantiation of the hypotheses of `tick_two_tier_gating`. -/
theorem tick_two_tier_gating_witness :
    ((⟨0, 5, true, 2, 500, 0, 0, 5, 0, 0, 0, 25, 500⟩ : MotorState).moving = true ∧
     1 ≤ 2000 / (2 * (⟨0, 5, true, 2, 500, 0, 0, 5, 0, 0, 0, 25, 500⟩ : MotorState).set_speed) ∧
     2 ≤ (⟨0, 5, true, 2, 500, 0, 0, 5, 0, 0, 0, 25, 500⟩ : MotorState).speed) ∧
    ((⟨0, 5, true, 2, 500, 0, 0, 5, 0, 0, 0, 25, 500⟩ : MotorState).ovf_counter <
        2000 / (2 * (500 : Nat)) - 1 →
      stepper.tick 2000 10 (fun _ => 25) true
          (⟨0, 5, true, 2, 500, 0, 0, 5, 0, 0, 0, 25, 500⟩ : MotorState) =
        { (⟨0, 5, true, 2, 500, 0, 0, 5, 0, 0, 0, 25, 500⟩ : MotorState) with
            ovf_counter := 0 + 1 }) := by
  refine ⟨⟨rfl, by decide, by decide⟩, ?_⟩
  exact (tick_two_tier_gating 2000 10 (fun _ => 25) true
    (⟨0, 5, true, 2, 500, 0, 0, 5, 0, 0, 0, 25, 500⟩ : MotorState)
    rfl (by decide) (by decide)).1

/-- C5: refused-pulse atomicity.  On a qualifying tick (both gates pass,
`current ≠ target`): if the emitter declines, the motion fields `current`,
`relative`, `set_speed` are untouched (only the tick counters advance), so
the same step is retried; if the emitter confirms, the tick performs
`update_position` — `current` moves one step toward `target`, `relative`
increments, and `update_freq` is re-run to refresh `set_speed`. -/
theorem tick_emitter_atomicity (T amin : Nat) (ramp : MotorState → Nat)
    (s : MotorState) (hm : s.moving = true)
    (h1 : ¬ s.ovf_counter < T / (2 * s.set_speed) - 1)
    (h2 : s.counter % (s.speed / 2) = 0)
    (hne : s.current ≠ s.target) :
    ((stepper.tick T amin ramp false s).current = s.current ∧
     (stepper.tick T amin ramp false s).relative = s.relative ∧
     (stepper.tick T amin ramp false s).set_speed = s.set_speed ∧
     stepper.tick T amin ramp false s =
       { s with ovf_counter := 0, counter := (s.counter + 1) % 256 }) ∧
    ((s.current < s.target →
       stepper.tick T amin ramp true s =
         stepper.update_position ramp amin 1
           { s with ovf_counter := 0, counter := (s.counter + 1) % 256 }) ∧
     (s.target < s.current →
       stepper.tick T amin ramp true s =
         stepper.update_position ramp amin (-1)
           { s with ovf_counter := 0, counter := (s.counter + 1) % 256 }) ∧
     (s.current < s.target →
       (stepper.tick T amin ramp true s).current = s.current + 1) ∧
     (s.target < s.current →
       (stepper.tick T amin ramp true s).current = s.current - 1) ∧
     (stepper.tick T amin ramp true s).relative = s.relative + 1) := by
  have hq0 := tick_qualifying T amin ramp false s hm h1 h2
  have hq1 := tick_qualifying T amin ramp true s hm h1 h2
  have hout : s.current < s.target →
      stepper.tick T amin ramp true s =
        stepper.update_position ramp amin 1
          { s with ovf_counter := 0, counter := (s.counter + 1) % 256 } := by
    intro hlt
    rw [hq1, stepPhase_out ramp amin true _ (by simpa using hlt), if_pos rfl]
  have hin : s.target < s.current →
      stepper.tick T amin ramp true s =
        stepper.update_position ramp amin (-1)
          { s with ovf_counter := 0, counter := (s.counter + 1) % 256 } := by
    intro hgt
    rw [hq1, stepPhase_in ramp amin true _ (by simpa using hgt), if_pos rfl]
  constructor
  · have hrefused : stepper.tick T amin ramp false s =
        { s with ovf_counter := 0, counter := (s.counter + 1) % 256 } := by
      rw [hq0]
      rcases Nat.lt_trichotomy s.current s.target with hlt | heq | hgt
      · rw [stepPhase_out ramp amin false _ (by simpa using hlt)]
        simp
      · exact absurd heq hne
      · rw [stepPhase_in ramp amin false _ (by simpa using hgt)]
        simp
    rw [hrefused]
    exact ⟨rfl, rfl, rfl, rfl⟩
  · refine ⟨hout, hin, ?_, ?_, ?_⟩
    · intro hlt
      rw [hout hlt]
      simp [stepper.update_position]
    · intro hgt
      rw [hin hgt]
      simp only [stepper.update_position]
      have : ((s.current : Int) + (-1)).toNat = s.current - 1 := by omega
      simpa using this
    · rcases Nat.lt_trichotomy s.current s.target with hlt | heq | hgt
      · rw [hout hlt]; simp [stepper.update_position]
      · exact absurd heq hne
      · rw [hin hgt]; simp [stepper.update_position]

/-- Closed instantiation of the hypotheses of `tick_emitter_atomicity`:
with the overflow counter at its threshold and the divider counter at a
multiple, a refused pulse leaves `current`/`relative`/`set_speed` alone. -/
theorem tick_emitter_atomicity_witness :
    ((⟨3, 9, true, 2, 500, 1, 0, 6, 0, 0, 0, 25, 500⟩ : MotorState).moving = true ∧
     ¬ (⟨3, 9, true, 2, 500, 1, 0, 6, 0, 0, 0, 25, 500⟩ : MotorState).ovf_counter <
         2000 / (2 * (500 : Nat)) - 1 ∧
     (⟨3, 9, true, 2, 500, 1, 0, 6, 0, 0, 0, 25, 500⟩ : MotorState).counter %
         ((⟨3, 9, true, 2, 500, 1, 0, 6, 0, 0, 0, 25, 500⟩ : MotorState).speed / 2) = 0 ∧
     (⟨3, 9, true, 2, 500, 1, 0, 6, 0, 0, 0, 25, 500⟩ : MotorState).current ≠
       (⟨3, 9, true, 2, 500, 1, 0, 6, 0, 0, 0, 25, 500⟩ : MotorState).target) ∧
    (stepper.tick 2000 10 (fun _ => 30) false
        (⟨3, 9, true, 2, 500, 1, 0, 6, 0, 0, 0, 25, 500⟩ : MotorState)).current = 3 := by
  refine ⟨⟨rfl, by decide, by decide, by decide⟩, ?_⟩
  exact (tick_emitter_atomicity 2000 10 (fun _ => 30)
    (⟨3, 9, true, 2, 500, 1, 0, 6, 0, 0, 0, 25, 500⟩ : MotorState)
    rfl (by decide) (by decide) (by decide)).1.1

namespace ResKeybd

/-- The actions of the resistor-network keyboard (`ResKeybd::action`). -/
inductive Action where
  | NOTHING
  | SLOWEST_FWD
  | SLOWEST_BWD
  | SLOW_FWD
  | SLOW_BWD
  | FAST_FWD
  | FAST_BWD
  | ULTRA_FWD
  | ULTRA_BWD
  | MOTOR_SWITCH
  deriving DecidableEq, Repr

/-- `ResKeybd::button_values` from `src/unnamed/part_000`: the flat array of
`(interval start, interval end, action)` triples, in declaration order. -/
def button_values : List (Nat × Nat × Action) :=
  [(900, 990, .NOTHING),
   (800, 899, .MOTOR_SWITCH),
   (690, 799, .FAST_FWD),
   (400, 500, .ULTRA_FWD),
   (111, 210, .FAST_BWD),
   (30, 110, .ULTRA_BWD),
   (600, 689, .SLOWEST_FWD),
   (330, 399, .SLOW_FWD),
   (501, 600, .SLOWEST_BWD),
   (211, 350, .SLOW_BWD)]

/-- `ResKeybd::decode`: scan the triples in order and return the action of
the first triple whose closed interval contains the sample; fall through to
`NOTHING`. -/
def decode : List (Nat × Nat × Action) → Nat → Action
  | [], _ => .NOTHING
  | (lo, hi, a) :: rest, v => if lo ≤ v ∧ v ≤ hi then a else decode rest v

/-- First-match semantics written the way the spec phrases it: the action of
the first table entry (under `List.find?`) whose interval contains the
sample, else the neutral action. -/
def decodeFirstMatch (tbl : List (Nat × Nat × Action)) (v : Nat) : Action :=
  match tbl.find? (fun e => decide (e.1 ≤ v ∧ v ≤ e.2.1)) with
  | some e => e.2.2
  | none => .NOTHING

end ResKeybd

/-- C9: the decoder returns the action of the first triple (in table order)
whose closed interval contains the raw sample, and `NOTHING` when none
does; with the configured table, 850 decodes to `MOTOR_SWITCH`, 950 to
`NOTHING`, and 5 to `NOTHING`. -/
theorem decode_first_match :
    (∀ (tbl : List (Nat × Nat × ResKeybd.Action)) (v : Nat),
      ResKeybd.decode tbl v = ResKeybd.decodeFirstMatch tbl v) ∧
    ResKeybd.decode ResKeybd.button_values 850 = .MOTOR_SWITCH ∧
    ResKeybd.decode ResKeybd.button_values 950 = .NOTHING ∧
    ResKeybd.decode ResKeybd.button_values 5 = .NOTHING := by
  refine ⟨?_, by decide, by decide, by decide⟩
  intro tbl v
  induction tbl with
  | nil => rfl
  | cons e rest ih =>
    obtain ⟨lo, hi, a⟩ := e
    by_cases h : lo ≤ v ∧ v ≤ hi
    · simp [ResKeybd.decode, ResKeybd.decodeFirstMatch, List.find?, h]
    · simpa [ResKeybd.decode, ResKeybd.decodeFirstMatch, List.find?, h] using ih

namespace ResKeybd

/-- The per-button debounce record: `previous_state` and the `uint8_t`
`counter` (the counter never exceeds `threshold`, itself a `uint8_t`, so a
`Nat` model is exact). -/
structure DebState where
  previous : Bool
  counter : Nat
  deriving DecidableEq, Repr

/-- `ResKeybd::debounce`: given the raw `current_state` and the stored
record, return the reported value of `current_state` after the call (the
routine writes back through the reference), the `trigger_event` flag, and
the updated record. -/
def debounce (cur : Bool) (st : DebState) (threshold : Nat) :
    Bool × Bool × DebState :=
  if cur = st.previous then (cur, false, ⟨st.previous, 0⟩)
  else if st.counter < threshold then (st.previous, false, ⟨st.previous, st.counter + 1⟩)
  else (cur, true, ⟨cur, 0⟩)

/-- Feed a sequence of raw samples through `debounce`, threading the record
and collecting the per-sample (reported value, trigger) pairs. -/
def feed (threshold : Nat) : List Bool → DebState → DebState × List (Bool × Bool)
  | [], st => (st, [])
  | b :: bs, st =>
    let r := debounce b st threshold
    let rest := feed threshold bs r.2.2
    (rest.1, (r.1, r.2.1) :: rest.2)

end ResKeybd

/-- Helper: feeding matching (stable) samples leaves the record unchanged
and reports the stable value with no trigger. -/
theorem feed_stable (th : Nat) (k : Nat) :
    ResKeybd.feed th (List.replicate k false) ⟨false, 0⟩ =
      (⟨false, 0⟩, List.replicate k (false, false)) := by
  induction k with
  | zero => rfl
  | succ n ih =>
    simp only [List.replicate_succ, ResKeybd.feed, ResKeybd.debounce]
    simp [ih]

/-- Helper: while `counter < threshold`, a run of dissenting samples is
suppressed: each one reports the stored `previous_state`, fires no trigger,
and increments the counter. -/
theorem feed_suppress (th : Nat) (k : Nat) :
    ∀ j, j + k ≤ th →
      ResKeybd.feed th (List.replicate k true) ⟨false, j⟩ =
        (⟨false, j + k⟩, List.replicate k (false, false)) := by
  induction k with
  | zero => intro j _; rfl
  | succ n ih =>
    intro j hj
    have hlt : j < th := by omega
    simp only [List.replicate_succ, ResKeybd.feed, ResKeybd.debounce]
    rw [if_neg (by simp), if_pos hlt]
    have := ih (j + 1) (by omega)
    simp only [this]
    have : j + 1 + n = j + (n + 1) := by omega
    simp [this]

/-- Helper: splitting a fed sample sequence. -/
theorem feed_append (th : Nat) (xs ys : List Bool) (st : ResKeybd.DebState) :
    ResKeybd.feed th (xs ++ ys) st =
      ((ResKeybd.feed th ys (ResKeybd.feed th xs st).1).1,
       (ResKeybd.feed th xs st).2 ++ (ResKeybd.feed th ys (ResKeybd.feed th xs st).1).2) := by
  induction xs generalizing st with
  | nil => simp [ResKeybd.feed]
  | cons b bs ih => simp [ResKeybd.feed, ih]

/-- Helper: suppressed output pairs contain no trigger. -/
theorem filter_no_trigger (k : Nat) :
    (List.replicate k ((false : Bool), (false : Bool))).filter (fun p => p.2) = [] := by
  induction k with
  | zero => rfl
  | succ n ih => simp [List.replicate_succ, List.filter, ih]

/-- C7 (amended): starting from `previous_state = false`, `counter = 0`,
feeding `false` for `threshold - 1` samples and then `true` once yields no
trigger and leaves `previous_state = false` (the lone `true` is suppressed
and reported as `false`); the trigger fires only on the
`threshold + 1`-st consecutive `true` sample — holding `true` for
`threshold + 1` samples yields exactly one trigger and flips
`previous_state` to `true`, the first `threshold` of those samples being
suppressed and reported as the old stable value `false`. -/
theorem debounce_threshold_behavior (th : Nat) (hth : 1 ≤ th) :
    ResKeybd.feed th (List.replicate (th - 1) false ++ [true]) ⟨false, 0⟩ =
      (⟨false, 1⟩, List.replicate (th - 1) (false, false) ++ [(false, false)]) ∧
    ResKeybd.feed th (List.replicate (th + 1) true) ⟨false, 0⟩ =
      (⟨true, 0⟩, List.replicate th (false, false) ++ [(true, true)]) ∧
    ((ResKeybd.feed th (List.replicate (th - 1) false ++ [true]) ⟨false, 0⟩).2.filter
        (fun p => p.2)).length = 0 ∧
    ((ResKeybd.feed th (List.replicate (th + 1) true) ⟨false, 0⟩).2.filter
        (fun p => p.2)).length = 1 := by
  have h1 : ResKeybd.feed th (List.replicate (th - 1) false ++ [true]) ⟨false, 0⟩ =
      (⟨false, 1⟩, List.replicate (th - 1) (false, false) ++ [(false, false)]) := by
    rw [feed_append, feed_stable]
    have hsingle : ResKeybd.feed th [true] ⟨false, 0⟩ = (⟨false, 1⟩, [(false, false)]) := by
      simp only [ResKeybd.feed, ResKeybd.debounce]
      rw [if_neg (by simp), if_pos (by omega)]
    simp [hsingle]
  have h2 : ResKeybd.feed th (List.replicate (th + 1) true) ⟨false, 0⟩ =
      (⟨true, 0⟩, List.replicate th (false, false) ++ [(true, true)]) := by
    rw [List.replicate_succ', feed_append, feed_suppress th th 0 (by omega)]
    have hacc : ResKeybd.feed th [true] ⟨false, th⟩ = (⟨true, 0⟩, [(true, true)]) := by
      simp only [ResKeybd.feed, ResKeybd.debounce]
      rw [if_neg (by simp), if_neg (by omega)]
    simp [hacc]
  refine ⟨h1, h2, ?_, ?_⟩
  · rw [h1]
    simp [List.filter_append, filter_no_trigger]
  · rw [h2]
    simp [List.filter_append, filter_no_trigger]

/-- Counterexample to C7 as stated: with `threshold = 2`, feeding `true`
for `threshold` consecutive samples (from the stable-false reset state)
fires no trigger at all and leaves `previous_state = false` —
the acceptance happens only on the `threshold + 1`-st sample, because
`counter` starts at 0 and the accept branch requires the pre-call counter
to have already reached `threshold`. -/
theorem debounce_threshold_cex :
    (ResKeybd.feed 2 (List.replicate 2 true) ⟨false, 0⟩).1.previous = false ∧
    ((ResKeybd.feed 2 (List.replicate 2 true) ⟨false, 0⟩).2.filter
        (fun p => p.2)).length = 0 := by
  decide

/-- Closed instantiation of the hypothesis of
`debounce_threshold_behavior` at `threshold = 2`. -/
theorem debounce_threshold_behavior_witness :
    1 ≤ 2 ∧
    ResKeybd.feed 2 (List.replicate 3 true) ⟨false, 0⟩ =
      (⟨true, 0⟩, List.replicate 2 (false, false) ++ [(true, true)]) :=
  ⟨by decide, (debounce_threshold_behavior 2 (by decide)).2.1⟩

namespace ResKeybd

/-- The motor selector (`motor_t`). -/
inductive Motor where
  | one
  | two
  deriving DecidableEq, Repr

/-- Engine commands issued by `ResKeybd::tick` through the `api` facade
(`api::motor_set_speed`, `api::motor_set_target`, `api::motor_start` which
runs `stepper::move`, and `api::motor_stop` which runs `stepper::halt`). -/
inductive Cmd where
  | setSpeed (m : Motor) (v : Nat)
  | setTarget (m : Motor) (v : Nat)
  | start (m : Motor)
  | stop (m : Motor)
  deriving DecidableEq, Repr

/-- The static state of `ResKeybd::tick` in `src/unnamed/part_000`: the
three debounce records (forward, backward, motor switch), the selected
motor, and the saved `old_motor_speed`. -/
structure KbState where
  debFwd : DebState
  debBwd : DebState
  debSwt : DebState
  motor : Motor
  oldSpeed : Nat
  deriving DecidableEq, Repr

/-- The observable engine state the keyboard reads and drives: per-motor
`moving` flags and speed dividers (the slice of the two `stepper` objects
that `ResKeybd::tick` interacts with through `api`). -/
structure ApiState where
  moving1 : Bool
  moving2 : Bool
  speed1 : Nat
  speed2 : Nat
  deriving DecidableEq, Repr

/-- `api::motor_is_moving`. -/
def apiIsMoving (api : ApiState) : Motor → Bool
  | .one => api.moving1
  | .two => api.moving2

/-- `api::motor_get_speed`. -/
def apiGetSpeed (api : ApiState) : Motor → Nat
  | .one => api.speed1
  | .two => api.speed2

/-- `api::motor_set_speed` (its effect on the engine slice). -/
def apiSetSpeed (api : ApiState) (m : Motor) (v : Nat) : ApiState :=
  match m with
  | .one => { api with speed1 := v }
  | .two => { api with speed2 := v }

/-- `api::motor_start` = `stepper::move` (its effect on `moving`). -/
def apiStart (api : ApiState) : Motor → ApiState
  | .one => { api with moving1 := true }
  | .two => { api with moving2 := true }

/-- `api::motor_stop` = `stepper::halt` (its effect on `moving`). -/
def apiStop (api : ApiState) : Motor → ApiState
  | .one => { api with moving1 := false }
  | .two => { api with moving2 := false }

/-- The `switch(motor)` toggle in the motor-switch block. -/
def switchMotor : Motor → Motor
  | .one => .two
  | .two => .one

/-- The `new_motor_speed` assigned in the `switch (act)` of
`ResKeybd::tick`; `MOTOR1_MIN_SPEED = MOTOR2_MIN_SPEED = 25` and
`MOTOR1_MAX_SPEED = MOTOR2_MAX_SPEED = 500` per `config.h`, so the value
does not depend on the selected motor.  Actions that set neither
`fwd_state` nor `bwd_state` leave the initial 0. -/
def actionSpeed : Action → Nat
  | .SLOWEST_FWD | .SLOWEST_BWD => 25
  | .SLOW_FWD | .SLOW_BWD => 25 + (500 - 25) / 3
  | .FAST_FWD | .FAST_BWD => 25 + (500 - 25) * 2 / 3
  | .ULTRA_FWD | .ULTRA_BWD => 500
  | _ => 0

/-- Whether the decoded action raises the raw `fwd_state`. -/
def actFwd : Action → Bool
  | .SLOWEST_FWD | .SLOW_FWD | .FAST_FWD | .ULTRA_FWD => true
  | _ => false

/-- Whether the decoded action raises the raw `bwd_state`. -/
def actBwd : Action → Bool
  | .SLOWEST_BWD | .SLOW_BWD | .FAST_BWD | .ULTRA_BWD => true
  | _ => false

/-- Whether the decoded action raises the raw `switch_state`. -/
def actSwt : Action → Bool
  | .MOTOR_SWITCH => true
  | _ => false

/-- `ResKeybd::tick` from `src/unnamed/part_000` (with `MOTOR2_HAS_DRIVER`
configured): decode the analog sample, derive the raw button states and
`new_motor_speed`, debounce the three logical buttons, then run the
command block.  `mapFn` models `map(new_motor_speed, MOTOR1_MIN_SPEED,
MOTOR1_MAX_SPEED, 2, 64)` — the `map` utility lives in a header missing
from the sources and only rescales the speed argument of
`api::motor_set_speed`.  LED feedback writes and `comms.reply` touch only
pins and the serial port.  The target of `api::motor_set_target` is the
`uint32_t` reading of `-1` (all out) or `0` (all in).  Returns the new
keyboard state, the new engine slice, and the issued commands in order. -/
def tickKb (mapFn : Nat → Nat) (th : Nat) (value : Nat) (kb : KbState)
    (api : ApiState) : KbState × ApiState × List Cmd :=
  let act := decode button_values value
  let nms := actionSpeed act
  let rf := debounce (actFwd act) kb.debFwd th
  let rb := debounce (actBwd act) kb.debBwd th
  let rs := debounce (actSwt act) kb.debSwt th
  let kb1 : KbState := { kb with debFwd := rf.2.2, debBwd := rb.2.2,
                                 debSwt := rs.2.2 }
  if rf.1 || rb.1 then
    let kb2 : KbState :=
      if rf.2.1 || rb.2.1 then { kb1 with oldSpeed := apiGetSpeed api kb.motor }
      else kb1
    let api1 := apiSetSpeed api kb.motor (mapFn nms)
    if apiIsMoving api1 kb.motor = false then
      (kb2, apiStart api1 kb.motor,
        [Cmd.setSpeed kb.motor (mapFn nms),
         Cmd.setTarget kb.motor (if rf.1 then 4294967295 else 0),
         Cmd.start kb.motor])
    else
      (kb2, api1, [Cmd.setSpeed kb.motor (mapFn nms)])
  else
    let stopNow := rf.2.1 || rb.2.1
    let api2 := if stopNow
      then apiSetSpeed (apiStop api kb.motor) kb.motor kb1.oldSpeed
      else api
    let cmds2 : List Cmd := if stopNow
      then [Cmd.stop kb.motor, Cmd.setSpeed kb.motor kb1.oldSpeed]
      else []
    if rs.1 && rs.2.1 && (apiIsMoving api2 kb.motor = false) then
      ({ kb1 with motor := switchMotor kb.motor }, api2, cmds2)
    else
      (kb1, api2, cmds2)

end ResKeybd

/-- C8 fails on the code: a poll cycle on which both the forward and the
backward logical buttons are simultaneously confirmed (debounced) as
asserted — the raw sample 700 decodes to `FAST_FWD`, keeping the
stable-pressed forward button reported `true`, while the backward button's
record (`previous_state = true`, `counter = 0 < threshold`) suppresses the
raw `false` and likewise reports the confirmed `true` — yet `tick` issues
`motor_set_speed`, `motor_set_target` and `motor_start` (a `move()`) to
the idle selected motor and flips its `moving` flag, instead of
suppressing motion. -/
theorem reskeybd_both_directions_move (mapFn : Nat → Nat) :
    (ResKeybd.debounce
        (ResKeybd.actFwd (ResKeybd.decode ResKeybd.button_values 700))
        ⟨true, 0⟩ 2).1 = true ∧
    (ResKeybd.debounce
        (ResKeybd.actBwd (ResKeybd.decode ResKeybd.button_values 700))
        ⟨true, 0⟩ 2).1 = true ∧
    (ResKeybd.tickKb mapFn 2 700 ⟨⟨true, 0⟩, ⟨true, 0⟩, ⟨false, 0⟩, .one, 0⟩
        ⟨false, false, 16, 16⟩).2.2 =
      [ResKeybd.Cmd.setSpeed .one (mapFn 341),
       ResKeybd.Cmd.setTarget .one 4294967295,
       ResKeybd.Cmd.start .one] ∧
    (ResKeybd.tickKb mapFn 2 700 ⟨⟨true, 0⟩, ⟨true, 0⟩, ⟨false, 0⟩, .one, 0⟩
        ⟨false, false, 16, 16⟩).2.1.moving1 = true := by
  exact ⟨rfl, rfl, rfl, rfl⟩

/-- Helper: `absDist` as truncated differences, for arithmetic reasoning. -/
theorem absDist_eq (a b : Nat) : absDist a b = (a - b) + (b - a) := by
  simp only [absDist]
  split <;> omega

/-- The regime in which the convergence development works: positive planner
speed with `2 * set_speed ≤ TIMER0_FREQ` (so the `Nat` reading of the
first-gate threshold `T / (2 set_speed) - 1` agrees with the machine
arithmetic), the spec's `speed_divider ≥ 2` caller contract, the `uint8_t`
counter in range, and a usable `min_speed` (the spec bounds `set_speed` by
`[min_speed, max_speed]`). -/
def stepper.goodState (T : Nat) (s : MotorState) : Prop :=
  1 ≤ s.set_speed ∧ 2 * s.set_speed ≤ T ∧ 2 ≤ s.speed ∧ s.counter < 256 ∧
  1 ≤ s.min_speed ∧ 2 * s.min_speed ≤ T

/-- Helper: while the overflow counter is below the threshold, iterating
the tick only accumulates increments of the overflow counter. -/
theorem iter_gate1 (T amin : Nat) (ramp : MotorState → Nat) :
    ∀ (j : Nat) (s : MotorState), s.moving = true →
      s.ovf_counter + j ≤ T / (2 * s.set_speed) - 1 →
      (stepper.tick T amin ramp true)^[j] s =
        { s with ovf_counter := s.ovf_counter + j } := by
  intro j
  induction j with
  | zero =>
    intro s hm hle
    simp
  | succ n ih =>
    intro s hm hle
    rw [Function.iterate_succ_apply,
      tick_gate1_fail T amin ramp true s hm (by omega)]
    rw [ih { s with ovf_counter := s.ovf_counter + 1 } hm (by simp; omega)]
    simp
    omega

/-- Helper: from any moving state some number of ticks reaches a state,
identical except for its overflow counter, on which the first gate is
ready to pass. -/
theorem reach_gate1ready (T amin : Nat) (ramp : MotorState → Nat)
    (s : MotorState) (hm : s.moving = true) :
    ∃ j v, ¬ v < T / (2 * s.set_speed) - 1 ∧
      (stepper.tick T amin ramp true)^[j] s = { s with ovf_counter := v } := by
  by_cases h : s.ovf_counter < T / (2 * s.set_speed) - 1
  · refine ⟨T / (2 * s.set_speed) - 1 - s.ovf_counter,
      s.ovf_counter + (T / (2 * s.set_speed) - 1 - s.ovf_counter), ?_, ?_⟩
    · omega
    · exact iter_gate1 T amin ramp _ s hm (by omega)
  · exact ⟨0, s.ovf_counter, h, rfl⟩

/-- Helper: from any moving state with the `uint8_t` counter in range, some
number of ticks reaches the qualifying transition: the iterate equals the
step phase applied to the original state with the overflow counter reset
and some in-range counter value. -/
theorem reach_qual (T amin : Nat) (ramp : MotorState → Nat) :
    ∀ (fuel : Nat) (s : MotorState), s.moving = true → s.counter < 256 →
      (if s.counter = 0 then 0 else 256 - s.counter) ≤ fuel →
      ∃ k c, c < 256 ∧
        (stepper.tick T amin ramp true)^[k] s =
          stepper.stepPhase ramp amin true
            { s with ovf_counter := 0, counter := c } := by
  intro fuel
  induction fuel with
  | zero =>
    intro s hm hctr hfuel
    have hc0 : s.counter = 0 := by
      by_cases h : s.counter = 0
      · exact h
      · rw [if_neg h] at hfuel
        omega
    obtain ⟨j, v, hv, hiter⟩ := reach_gate1ready T amin ramp s hm
    refine ⟨j + 1, (s.counter + 1) % 256, Nat.mod_lt _ (by omega), ?_⟩
    rw [Function.iterate_succ_apply', hiter]
    exact tick_qualifying T amin ramp true { s with ovf_counter := v }
      hm hv (by simp [hc0])
  | succ n ih =>
    intro s hm hctr hfuel
    by_cases hc : s.counter % (s.speed / 2) = 0
    · obtain ⟨j, v, hv, hiter⟩ := reach_gate1ready T amin ramp s hm
      refine ⟨j + 1, (s.counter + 1) % 256, Nat.mod_lt _ (by omega), ?_⟩
      rw [Function.iterate_succ_apply', hiter]
      exact tick_qualifying T amin ramp true { s with ovf_counter := v }
        hm hv hc
    · obtain ⟨j, v, hv, hiter⟩ := reach_gate1ready T amin ramp s hm
      have hstep : stepper.tick T amin ramp true { s with ovf_counter := v } =
          { s with ovf_counter := 0, counter := (s.counter + 1) % 256 } :=
        tick_gate2_fail T amin ramp true { s with ovf_counter := v } hm hv hc
      have hcnz : s.counter ≠ 0 := by
        intro h
        exact hc (by simp [h])
      rw [if_neg hcnz] at hfuel
      have hctr3 : ((s.counter + 1) % 256) < 256 := Nat.mod_lt _ (by omega)
      have hfuel3 :
          (if ((s.counter + 1) % 256) = 0 then 0 else 256 - (s.counter + 1) % 256)
            ≤ n := by
        by_cases h255 : s.counter + 1 = 256
        · simp [h255]
        · have hmod : (s.counter + 1) % 256 = s.counter + 1 :=
            Nat.mod_eq_of_lt (by omega)
          rw [hmod, if_neg (by omega)]
          omega
      obtain ⟨k, c, hc256, hk⟩ := ih
        { s with ovf_counter := 0, counter := (s.counter + 1) % 256 }
        hm hctr3 hfuel3
      refine ⟨k + (j + 1), c, hc256, ?_⟩
      rw [Function.iterate_add_apply, Function.iterate_succ_apply', hiter,
        hstep, hk]

/-- Helper: field effects of `update_position`. -/
theorem update_position_fields (ramp : MotorState → Nat) (amin : Nat)
    (dir : Int) (s : MotorState) :
    (stepper.update_position ramp amin dir s).current =
      ((s.current : Int) + dir).toNat ∧
    (stepper.update_position ramp amin dir s).target = s.target ∧
    (stepper.update_position ramp amin dir s).moving = s.moving ∧
    (stepper.update_position ramp amin dir s).relative = s.relative + 1 ∧
    (stepper.update_position ramp amin dir s).counter = s.counter ∧
    (stepper.update_position ramp amin dir s).speed = s.speed ∧
    (stepper.update_position ramp amin dir s).min_speed = s.min_speed := by
  simp [stepper.update_position]

/-- Helper: `update_position` keeps `set_speed` in the good regime as long
as the ramp outputs and `min_speed` are in it. -/
theorem update_position_speed_bounds (T amin : Nat) (ramp : MotorState → Nat)
    (Hramp : ∀ t, 1 ≤ ramp t ∧ 2 * ramp t ≤ T) (dir : Int) (s : MotorState)
    (h1 : 1 ≤ s.min_speed) (h2 : 2 * s.min_speed ≤ T) :
    1 ≤ (stepper.update_position ramp amin dir s).set_speed ∧
    2 * (stepper.update_position ramp amin dir s).set_speed ≤ T := by
  simp only [stepper.update_position, stepper.update_freq]
  split
  · exact Hramp _
  · exact ⟨by simpa using h1, by simpa using h2⟩


/-- Helper: `reach_qual` repackaged with the qualifying state's fields
related to the starting state's. -/
theorem reach_qual_facts (T amin : Nat) (ramp : MotorState → Nat)
    (s : MotorState) (hm : s.moving = true) (hctr : s.counter < 256) :
    ∃ k u, (stepper.tick T amin ramp true)^[k] s =
        stepper.stepPhase ramp amin true u ∧
      u.moving = true ∧ u.counter < 256 ∧ u.current = s.current ∧
      u.target = s.target ∧ u.relative = s.relative ∧ u.speed = s.speed ∧
      u.min_speed = s.min_speed := by
  obtain ⟨k, c, hc, hk⟩ := reach_qual T amin ramp
    (if s.counter = 0 then 0 else 256 - s.counter) s hm hctr (le_refl _)
  exact ⟨k, { s with ovf_counter := 0, counter := c }, hk, hm, hc,
    rfl, rfl, rfl, rfl, rfl⟩

/-- Helper: convergence by induction on the remaining distance. -/
theorem converge_aux (T amin : Nat) (ramp : MotorState → Nat)
    (Hramp : ∀ t, 1 ≤ ramp t ∧ 2 * ramp t ≤ T) :
    ∀ (n : Nat) (s : MotorState), absDist s.current s.target = n →
      s.moving = true → stepper.goodState T s →
      ∃ k, ((stepper.tick T amin ramp true)^[k] s).current = s.target ∧
           ((stepper.tick T amin ramp true)^[k] s).target = s.target ∧
           ((stepper.tick T amin ramp true)^[k] s).moving = false ∧
           ((stepper.tick T amin ramp true)^[k] s).relative = s.relative + n := by
  intro n
  induction n with
  | zero =>
    intro s hdist hm hinv
    have heq : s.current = s.target := by
      rw [absDist_eq] at hdist
      omega
    obtain ⟨k, u, hk, hum, huctr, hucur, hutar, hurel, husp, humin⟩ :=
      reach_qual_facts T amin ramp s hm hinv.2.2.2.1
    have heq2 : u.current = u.target := by
      rw [hucur, hutar]
      exact heq
    refine ⟨k, ?_⟩
    rw [hk, stepPhase_arrived ramp amin true u heq2]
    refine ⟨?_, ?_, rfl, ?_⟩
    · show u.current = s.target
      rw [hucur, heq]
    · show u.current = s.target
      rw [hucur, heq]
    · show u.relative = s.relative + 0
      rw [hurel]
      omega
  | succ n ih =>
    intro s hdist hm hinv
    obtain ⟨hss1, hss2, hsp, hctr, hmn1, hmn2⟩ := hinv
    obtain ⟨k, u, hk, hum, huctr, hucur, hutar, hurel, husp, humin⟩ :=
      reach_qual_facts T amin ramp s hm hctr
    rw [absDist_eq] at hdist
    rcases Nat.lt_trichotomy s.current s.target with hlt | heq | hgt
    · have hlt2 : u.current < u.target := by
        rw [hucur, hutar]
        exact hlt
      have hstep := stepPhase_out ramp amin true u hlt2
      rw [if_pos rfl] at hstep
      obtain ⟨hf1, hf2, hf3, hf4, hf5, hf6, hf7⟩ :=
        update_position_fields ramp amin 1 u
      have hcur : (stepper.update_position ramp amin 1 u).current =
          s.current + 1 := by
        rw [hf1, hucur]
        omega
      have hb := update_position_speed_bounds T amin ramp Hramp 1 u
        (by rw [humin]; exact hmn1) (by rw [humin]; exact hmn2)
      obtain ⟨k2, hk2⟩ := ih (stepper.update_position ramp amin 1 u)
        (by rw [absDist_eq, hcur, hf2, hutar]; omega)
        (by rw [hf3, hum])
        ⟨hb.1, hb.2, by rw [hf6, husp]; exact hsp, by rw [hf5]; exact huctr,
         by rw [hf7, humin]; exact hmn1, by rw [hf7, humin]; exact hmn2⟩
      refine ⟨k2 + k, ?_⟩
      rw [Function.iterate_add_apply, hk, hstep]
      refine ⟨?_, ?_, hk2.2.2.1, ?_⟩
      · rw [hk2.1, hf2, hutar]
      · rw [hk2.2.1, hf2, hutar]
      · rw [hk2.2.2.2, hf4, hurel]
        omega
    · omega
    · have hgt2 : u.target < u.current := by
        rw [hucur, hutar]
        exact hgt
      have hstep := stepPhase_in ramp amin true u hgt2
      rw [if_pos rfl] at hstep
      obtain ⟨hf1, hf2, hf3, hf4, hf5, hf6, hf7⟩ :=
        update_position_fields ramp amin (-1) u
      have hcur : (stepper.update_position ramp amin (-1) u).current =
          s.current - 1 := by
        rw [hf1, hucur]
        omega
      have hb := update_position_speed_bounds T amin ramp Hramp (-1) u
        (by rw [humin]; exact hmn1) (by rw [humin]; exact hmn2)
      obtain ⟨k2, hk2⟩ := ih (stepper.update_position ramp amin (-1) u)
        (by rw [absDist_eq, hcur, hf2, hutar]; omega)
        (by rw [hf3, hum])
        ⟨hb.1, hb.2, by rw [hf6, husp]; exact hsp, by rw [hf5]; exact huctr,
         by rw [hf7, humin]; exact hmn1, by rw [hf7, humin]; exact hmn2⟩
      refine ⟨k2 + k, ?_⟩
      rw [Function.iterate_add_apply, hk, hstep]
      refine ⟨?_, ?_, hk2.2.2.1, ?_⟩
      · rw [hk2.1, hf2, hutar]
      · rw [hk2.2.1, hf2, hutar]
      · rw [hk2.2.2.2, hf4, hurel]
        omega

/-- C1 (amended): assume the Pulse Emitter never refuses, the axis is
moving, and the speeds are in the good regime (planner outputs positive and
at most `TIMER0_FREQ / 2`, divider `≥ 2`, `counter` in `uint8_t` range).
Then repeated ticks eventually drive `current` to the (never-changing)
`target` and clear `moving`; the number of emitted pulses — the growth of
`relative` — equals the initial distance `|current - target|`.  The number
of raw ticks is finite but exceeds `distance`: each pulse costs at least
one full pass of the two counter gates, and `moving` is only cleared by
the `halt()` branch of the first qualifying tick after arrival. -/
theorem scheduler_target_convergence (T amin : Nat) (ramp : MotorState → Nat)
    (s : MotorState) (Hramp : ∀ t, 1 ≤ ramp t ∧ 2 * ramp t ≤ T)
    (hm : s.moving = true) (hgood : stepper.goodState T s) :
    ∃ k, ((stepper.tick T amin ramp true)^[k] s).current = s.target ∧
         ((stepper.tick T amin ramp true)^[k] s).target = s.target ∧
         ((stepper.tick T amin ramp true)^[k] s).moving = false ∧
         ((stepper.tick T amin ramp true)^[k] s).relative =
           s.relative + absDist s.current s.target :=
  converge_aux T amin ramp Hramp (absDist s.current s.target) s rfl hm hgood

/-- Counterexample to C1 as stated: even in the most permissive speed
configuration (`TIMER0_FREQ = 2`, `set_speed = 1`, divider `2`), where both
gates pass on every tick, a `distance = 1` move has not reached
`current == target ∧ moving == false` within `distance` ticks: after one
tick `current == target` holds but `moving` is still true, because `halt()`
only runs on the next qualifying tick after arrival. -/
theorem scheduler_convergence_bound_cex :
    ¬ ((((stepper.tick 2 10 (fun _ => 1) true)^[0]
            (⟨0, 1, true, 2, 1, 0, 0, 1, 0, 0, 0, 1, 1⟩ : MotorState)).current =
          (⟨0, 1, true, 2, 1, 0, 0, 1, 0, 0, 0, 1, 1⟩ : MotorState).target ∧
         ((stepper.tick 2 10 (fun _ => 1) true)^[0]
            (⟨0, 1, true, 2, 1, 0, 0, 1, 0, 0, 0, 1, 1⟩ : MotorState)).moving =
          false) ∨
       (((stepper.tick 2 10 (fun _ => 1) true)^[1]
            (⟨0, 1, true, 2, 1, 0, 0, 1, 0, 0, 0, 1, 1⟩ : MotorState)).current =
          (⟨0, 1, true, 2, 1, 0, 0, 1, 0, 0, 0, 1, 1⟩ : MotorState).target ∧
         ((stepper.tick 2 10 (fun _ => 1) true)^[1]
            (⟨0, 1, true, 2, 1, 0, 0, 1, 0, 0, 0, 1, 1⟩ : MotorState)).moving =
          false)) := by
  decide

/-- Closed instantiation of the hypotheses of
`scheduler_target_convergence` on a distance-2 move. -/
theorem scheduler_target_convergence_witness :
    (∀ t : MotorState, 1 ≤ (fun _ : MotorState => 1) t ∧
        2 * (fun _ : MotorState => 1) t ≤ 4) ∧
    (⟨0, 2, true, 2, 1, 0, 0, 2, 0, 0, 0, 1, 1⟩ : MotorState).moving = true ∧
    stepper.goodState 4 (⟨0, 2, true, 2, 1, 0, 0, 2, 0, 0, 0, 1, 1⟩ : MotorState) ∧
    ∃ k, ((stepper.tick 4 10 (fun _ => 1) true)^[k]
            (⟨0, 2, true, 2, 1, 0, 0, 2, 0, 0, 0, 1, 1⟩ : MotorState)).current =
           (⟨0, 2, true, 2, 1, 0, 0, 2, 0, 0, 0, 1, 1⟩ : MotorState).target ∧
         ((stepper.tick 4 10 (fun _ => 1) true)^[k]
            (⟨0, 2, true, 2, 1, 0, 0, 2, 0, 0, 0, 1, 1⟩ : MotorState)).target =
           (⟨0, 2, true, 2, 1, 0, 0, 2, 0, 0, 0, 1, 1⟩ : MotorState).target ∧
         ((stepper.tick 4 10 (fun _ => 1) true)^[k]
            (⟨0, 2, true, 2, 1, 0, 0, 2, 0, 0, 0, 1, 1⟩ : MotorState)).moving =
           false ∧
         ((stepper.tick 4 10 (fun _ => 1) true)^[k]
            (⟨0, 2, true, 2, 1, 0, 0, 2, 0, 0, 0, 1, 1⟩ : MotorState)).relative =
           (⟨0, 2, true, 2, 1, 0, 0, 2, 0, 0, 0, 1, 1⟩ : MotorState).relative +
             absDist (⟨0, 2, true, 2, 1, 0, 0, 2, 0, 0, 0, 1, 1⟩ : MotorState).current
               (⟨0, 2, true, 2, 1, 0, 0, 2, 0, 0, 0, 1, 1⟩ : MotorState).target :=
  ⟨fun _ => ⟨le_refl 1, by simp⟩, rfl, by unfold stepper.goodState; decide,
   scheduler_target_convergence 4 10 (fun _ => 1)
     (⟨0, 2, true, 2, 1, 0, 0, 2, 0, 0, 0, 1, 1⟩ : MotorState)
     (fun _ => ⟨le_refl 1, by simp⟩) rfl (by unfold stepper.goodState; decide)⟩
